import Mathlib

/-!
Shallow embedding of the Audio2Midi-Converter repository
(`src/utils/midi.ts`, `src/App.tsx`, `src/components/PianoRoll.tsx`).

JavaScript numbers are modelled as rationals (`ℚ`); `Math.round` is
`⌊x + 1/2⌋` (JS rounds halves toward +∞), `Math.floor` is `⌊·⌋`.
All definitions are translated from the TypeScript source.
-/

namespace Audio2Midi

/-- The `'melody' | 'harmony'` union of `MidiNote.type` (services/gemini.ts). -/
inductive NoteType where
  | melody
  | harmony
deriving DecidableEq, Repr, Inhabited

/-- The `MidiNote` interface of `services/gemini.ts`: all fields required. -/
structure MidiNote where
  pitch : ℤ
  startTime : ℚ
  duration : ℚ
  velocity : ℤ
  instrument : ℤ
  type : NoteType
deriving DecidableEq, Repr, Inhabited

/-- A NoteSet: the `MidiNote[]` arrays held in React state. -/
abbrev NoteSet := List MidiNote

/-- JS `Math.round`: nearest integer, halves toward +∞ (`⌊x + 1/2⌋`). -/
def jsRound (q : ℚ) : ℤ := ⌊q + 1 / 2⌋

/-- JS `Math.floor`. -/
def jsFloor (q : ℚ) : ℤ := ⌊q⌋

/-! ## utils/midi.ts -/

/-- The `quantize` field of `MidiOptions` (utils/midi.ts lines 8–12). -/
structure QuantizeOptions where
  enabled : Bool
  grid : ℚ
  strength : ℚ
deriving DecidableEq, Repr

/-- The `MidiOptions` interface (utils/midi.ts lines 4–13). -/
structure MidiOptions where
  bpm : ℚ
  timeSignature : ℚ × ℚ
  instrument : ℤ
  quantize : QuantizeOptions
deriving DecidableEq, Repr

/-- Function `quantizeValue` (utils/midi.ts lines 15–18):
`target = Math.round(value / gridInSeconds) * gridInSeconds;
 return value + (target - value) * strength`. -/
def quantizeValue (value gridInSeconds strength : ℚ) : ℚ :=
  let target : ℚ := (jsRound (value / gridInSeconds) : ℚ) * gridInSeconds
  value + (target - value) * strength

/-- The constant `TICKS_PER_SECOND = (BPM / 60) * 128` (utils/midi.ts line 27). -/
def ticksPerSecond (bpm : ℚ) : ℚ := bpm / 60 * 128

/-- The value `gridInSeconds = options.quantize.enabled ? (60 / BPM) * (4 / options.quantize.grid) : 0`
(utils/midi.ts line 28). -/
def gridInSecondsOf (options : MidiOptions) : ℚ :=
  if options.quantize.enabled then 60 / options.bpm * (4 / options.quantize.grid) else 0

/-- The body of the `notes.map` callback building `processedNotes`
(utils/midi.ts lines 30–41): when quantization is enabled, start and end
are quantized independently and the new duration is
`Math.max(0.01, quantizedEnd - quantizedStart)`. -/
def processNote (options : MidiOptions) (note : MidiNote) : MidiNote :=
  if !options.quantize.enabled then note
  else
    let gridInSeconds := gridInSecondsOf options
    let quantizedStart := quantizeValue note.startTime gridInSeconds options.quantize.strength
    let quantizedEnd :=
      quantizeValue (note.startTime + note.duration) gridInSeconds options.quantize.strength
    { note with
        startTime := quantizedStart
        duration := max 0.01 (quantizedEnd - quantizedStart) }

/-- The `processedNotes` array (utils/midi.ts lines 30–41). -/
def processedNotes (notes : List MidiNote) (options : MidiOptions) : List MidiNote :=
  notes.map (processNote options)

/-- Effective instrument `note.instrument || options.instrument`
(utils/midi.ts line 45); JS `||` falls back on the falsy number `0`. -/
def effInstrument (options : MidiOptions) (note : MidiNote) : ℤ :=
  if note.instrument = 0 then options.instrument else note.instrument

/-- A `MidiWriter.NoteEvent` as constructed in utils/midi.ts lines 64–75:
`startTick = Math.round(note.startTime * TICKS_PER_SECOND)`,
`duration = T(Math.round(note.duration * TICKS_PER_SECOND))`. -/
structure NoteEvent where
  pitch : List ℤ
  durationTicks : ℤ
  velocity : ℤ
  startTick : ℤ
deriving DecidableEq, Repr

/-- utils/midi.ts lines 64–66 and 68–75. -/
def noteEventOf (tps : ℚ) (note : MidiNote) : NoteEvent :=
  { pitch := [note.pitch]
    durationTicks := jsRound (note.duration * tps)
    velocity := note.velocity
    startTick := jsRound (note.startTime * tps) }

/-- One `MidiWriter.Track` as assembled in utils/midi.ts lines 53–79. -/
structure Track where
  programChange : ℤ
  tempo : ℚ
  timeSignature : ℚ × ℚ
  events : List NoteEvent
deriving DecidableEq, Repr

/-- The distinct effective instruments, in the order `Object.entries`
enumerates the accumulated `Record<number, MidiNote[]>`: numeric
(array-index-like) keys are listed in ascending order. -/
def instrumentKeys (notes : List MidiNote) (options : MidiOptions) : List ℤ :=
  ((notes.map (effInstrument options)).dedup).mergeSort (· ≤ ·)

/-- The track built for one instrument group (utils/midi.ts lines 53–79):
program change to `inst - 1`, tempo, time signature, then the group's
notes sorted by ascending `startTime` — `[...instNotes].sort(...)`; JS
`Array.prototype.sort` is stable, like `List.mergeSort`. -/
def trackFor (options : MidiOptions) (instNotes : List MidiNote) (inst : ℤ) : Track :=
  let sortedNotes := instNotes.mergeSort (fun a b => a.startTime ≤ b.startTime)
  { programChange := inst - 1
    tempo := options.bpm
    timeSignature := options.timeSignature
    events := sortedNotes.map (noteEventOf (ticksPerSecond options.bpm)) }

/-- Function `generateMidiFile` (utils/midi.ts lines 20–83), up to the external
`MidiWriter.Writer`/`dataUri` serialization: quantize, group by effective
instrument, emit one track per group. -/
def generateMidiFile (notes : List MidiNote) (options : MidiOptions) : List Track :=
  let processed := processedNotes notes options
  (instrumentKeys processed options).map fun inst =>
    trackFor options (processed.filter (fun n => effInstrument options n = inst)) inst

/-! ## App.tsx: edit history -/

/-- The three React state pieces `history` (past), `notes` (current),
`future` of App.tsx lines 74–76. `past` holds the most recent snapshot
last; `future` holds the most recently undone snapshot first. -/
structure HistoryState where
  past : List NoteSet
  current : NoteSet
  future : List NoteSet
deriving DecidableEq, Repr

/-- Function `pushToHistory` (App.tsx lines 78–82): append `current` to `past`,
clear `future`, set `current` to the new notes. -/
def pushToHistory (s : HistoryState) (newNotes : NoteSet) : HistoryState :=
  { past := s.past ++ [s.current]
    current := newNotes
    future := [] }

/-- Function `undo` (App.tsx lines 84–90): no-op on empty `past`; otherwise pop
`history[history.length - 1]` into `current` and cons the old `current`
onto `future`. -/
def undo (s : HistoryState) : HistoryState :=
  match s.past with
  | [] => s
  | _ :: _ =>
    { past := s.past.dropLast
      current := s.past.getLastD []
      future := s.current :: s.future }

/-- Function `redo` (App.tsx lines 92–98): no-op on empty `future`; otherwise pop
`future[0]` into `current` and append the old `current` to `past`. -/
def redo (s : HistoryState) : HistoryState :=
  match s.future with
  | [] => s
  | next :: rest =>
    { past := s.past ++ [s.current]
      current := next
      future := rest }

/-- The full edit timeline, oldest snapshot first: `past`, then
`current`, then the undone `future` snapshots. -/
def timeline (s : HistoryState) : List NoteSet :=
  s.past ++ s.current :: s.future

/-! ## App.tsx: keyboard shortcuts -/

/-- The fields of a browser `KeyboardEvent` read by `handleKeyDown`
(App.tsx lines 102–112). For a physical Ctrl/Cmd+Shift+Z chord the
browser reports the shifted letter, i.e. `key = "Z"`. -/
structure KeyEvent where
  ctrlKey : Bool
  metaKey : Bool
  shiftKey : Bool
  key : String
deriving DecidableEq, Repr

/-- The history action a keydown event triggers. -/
inductive HistAction where
  | undoAction
  | redoAction
  | noAction
deriving DecidableEq, Repr

/-- Function `handleKeyDown` (App.tsx lines 102–112):
`if ((ctrlKey || metaKey) && key === 'z') { shiftKey ? redo : undo }
 else if ((ctrlKey || metaKey) && key === 'y') redo`. -/
def handleKeyDown (e : KeyEvent) : HistAction :=
  if (e.ctrlKey || e.metaKey) && e.key == "z" then
    if e.shiftKey then .redoAction else .undoAction
  else if (e.ctrlKey || e.metaKey) && e.key == "y" then .redoAction
  else .noAction

/-! ## components/PianoRoll.tsx -/

/-- The `quantize` prop of `PianoRoll` (PianoRoll.tsx lines 18–21). -/
structure PRQuantize where
  enabled : Bool
  grid : ℚ
deriving DecidableEq, Repr

/-- The memo `gridInSeconds` (PianoRoll.tsx lines 172–175):
`quantize?.enabled ? (60 / bpm) * (4 / quantize.grid) : 0`. -/
def prGridInSeconds (bpm : ℚ) (quantize : PRQuantize) : ℚ :=
  if quantize.enabled then 60 / bpm * (4 / quantize.grid) else 0

/-- Function `snap` (PianoRoll.tsx lines 177–180): identity when `gridInSeconds`
is `0`, else `Math.round(val / gridInSeconds) * gridInSeconds`. -/
def snap (gridInSeconds val : ℚ) : ℚ :=
  if gridInSeconds = 0 then val
  else (jsRound (val / gridInSeconds) : ℚ) * gridInSeconds

/-- Result of the `'create'` branch of `handleMouseDown`: the new notes
array passed to both `onNotesChange` and `onNotesCommit`, and the value
given to `setSelectedNoteIndex`. -/
structure CreateResult where
  notes : NoteSet
  selected : ℤ
deriving DecidableEq, Repr

/-- The `'create'` branch of `handleMouseDown` (PianoRoll.tsx lines
298–315): snap `x / pixelsPerSecond`, compute the pitch row under the
cursor, build the new note (`duration = gridInSeconds > 0 ? gridInSeconds
: 0.5`, `velocity = 80`, `instrument = notes[0]?.instrument || 1`,
`type = 'melody'`), append it and select the last index. -/
def createAt (gridInSeconds pixelsPerSecond noteHeight : ℚ) (maxPitch : ℤ)
    (notes : NoteSet) (x y : ℚ) : CreateResult :=
  let time := snap gridInSeconds (x / pixelsPerSecond)
  let pitch := maxPitch - jsFloor ((y - 24) / noteHeight)
  let newNote : MidiNote :=
    { pitch := pitch
      startTime := time
      duration := if gridInSeconds > 0 then gridInSeconds else 0.5
      velocity := 80
      instrument := match notes with
        | [] => 1
        | n :: _ => if n.instrument = 0 then 1 else n.instrument
      type := .melody }
  let newNotes := notes ++ [newNote]
  { notes := newNotes, selected := (newNotes.length : ℤ) - 1 }

/-! ## Heap-level model of `generateMidiFile` (utils/midi.ts)

To talk about mutation of the caller's note objects, the encoder is also
embedded over an explicit object store: `Store` is the heap of allocated
`MidiNote` objects, references are allocation indices, and every JS step
is modelled by what it reads and allocates. The spread `{...note, ...}`
in the `notes.map` callback allocates a fresh object; `[...instNotes]`
copies the reference array before `sort` touches it; no step ever writes
an existing heap cell. -/

/-- The heap of note objects; a reference is an index into it. -/
abbrev Store := List MidiNote

/-- Dereference a note object. -/
def readRef (s : Store) (r : ℕ) : MidiNote := s.getD r default

/-- Allocate a fresh note object, returning the grown heap and the new
reference. -/
def allocNote (s : Store) (n : MidiNote) : Store × ℕ := (s ++ [n], s.length)

/-- Heap-level body of the `notes.map` callback (utils/midi.ts lines
30–41): with quantization off it returns the same reference; with it on,
the object spread allocates a fresh quantized note. -/
def processNoteRef (options : MidiOptions) (s : Store) (r : ℕ) : Store × ℕ :=
  if !options.quantize.enabled then (s, r)
  else allocNote s (processNote options (readRef s r))

/-- Heap-level `notes.map(...)` (utils/midi.ts lines 30–41): left to
right over the input references, building a new array of references. -/
def processNotesRef (options : MidiOptions) : Store → List ℕ → Store × List ℕ
  | s, [] => (s, [])
  | s, r :: rs =>
    let step := processNoteRef options s r
    let rest := processNotesRef options step.1 rs
    (rest.1, step.2 :: rest.2)

/-- Heap-level `generateMidiFile` (utils/midi.ts lines 20–83): quantize
(allocating), group references by effective instrument, and per group
sort a copy of the reference array and read the notes to emit events.
Returns the final heap together with the tracks. -/
def generateMidiFileRef (options : MidiOptions) (s : Store) (noteRefs : List ℕ) :
    Store × List Track :=
  let step := processNotesRef options s noteRefs
  let s' := step.1
  let processed := step.2
  let keys := ((processed.map (fun r => effInstrument options (readRef s' r))).dedup).mergeSort
    (· ≤ ·)
  let tracks := keys.map fun inst =>
    let instRefs := processed.filter (fun r => effInstrument options (readRef s' r) = inst)
    let sortedRefs := instRefs.mergeSort
      (fun a b => (readRef s' a).startTime ≤ (readRef s' b).startTime)
    { programChange := inst - 1
      tempo := options.bpm
      timeSignature := options.timeSignature
      events := sortedRefs.map (fun r => noteEventOf (ticksPerSecond options.bpm) (readRef s' r)) }
  (s', tracks)

/-! ## Concrete example inputs -/

/-- A one-note NoteSet used as concrete data. -/
def noteC : MidiNote :=
  { pitch := 60, startTime := 0, duration := 1/2, velocity := 80, instrument := 1,
    type := .melody }

/-- A history state with empty `past` but non-empty `future`; it is
reachable: starting from the initial empty state, `pushToHistory [noteC]`
followed by `undo` produces exactly this state. -/
def stateCex : HistoryState := { past := [], current := [], future := [[noteC]] }

/-- A note starting at 0.5 s (used for the tick-conversion instance). -/
def note05 : MidiNote :=
  { pitch := 60, startTime := 1/2, duration := 1/2, velocity := 80, instrument := 1,
    type := .melody }

/-- Options at 120 BPM, 4/4, quantization disabled (the `MidiOptions` default of
utils/midi.ts lines 20–25). -/
def options120 : MidiOptions :=
  { bpm := 120, timeSignature := (4, 4), instrument := 1,
    quantize := { enabled := false, grid := 16, strength := 1 } }

/-- Options at 120 BPM with 1/8-grid full-strength quantization
(`gridInSeconds = (60/120) * (4/8) = 1/4`). -/
def optionsQ : MidiOptions :=
  { bpm := 120, timeSignature := (4, 4), instrument := 1,
    quantize := { enabled := true, grid := 8, strength := 1 } }

/-- A note whose duration rounds to zero on the 1/4-second grid
(start 0.1 s, duration 0.05 s: both endpoints quantize to 0). -/
def noteTiny : MidiNote :=
  { pitch := 64, startTime := 1/10, duration := 1/20, velocity := 70, instrument := 1,
    type := .harmony }

/-- The browser keydown event delivered for a physical Ctrl+Shift+Z
chord: shifted letter keys report their uppercase form, so `key = "Z"`. -/
def ctrlShiftZ : KeyEvent := { ctrlKey := true, metaKey := false, shiftKey := true, key := "Z" }

/-- A history state with one `past` snapshot and empty `future`. -/
def stateW : HistoryState := { past := [[]], current := [noteC], future := [] }

/-! ## Helper lemmas -/

/-- Rounding an integer with `jsRound` returns that integer. -/
theorem jsRound_intCast (k : ℤ) : jsRound (k : ℚ) = k := by
  rw [jsRound, Int.floor_int_add]
  norm_num

/-- Popping the last element after `dropLast` rebuilds a non-empty list. -/
theorem dropLast_append_getLastD {α : Type} (l : List α) (d : α) (h : l ≠ []) :
    l.dropLast ++ [l.getLastD d] = l := by
  rcases List.eq_nil_or_concat l with rfl | ⟨L, b, rfl⟩
  · exact absurd rfl h
  · simp [List.concat_eq_append, List.dropLast_concat, List.getLastD_concat]

/-- Unfolding `undo` on a non-empty `past`, written with `dropLast`/`getLastD`. -/
theorem undo_eq_of_past_ne_nil (s : HistoryState) (h : s.past ≠ []) :
    undo s = { past := s.past.dropLast, current := s.past.getLastD [],
               future := s.current :: s.future } := by
  rcases s with ⟨past, current, future⟩
  cases past with
  | nil => simp at h
  | cons a l => rfl

/-- Unfolding `redo` on a non-empty `future`, written with `headD`/`tail`. -/
theorem redo_eq_of_future_ne_nil (s : HistoryState) (h : s.future ≠ []) :
    redo s = { past := s.past ++ [s.current], current := s.future.headD [],
               future := s.future.tail } := by
  rcases s with ⟨past, current, future⟩
  cases future with
  | nil => simp at h
  | cons a l => rfl

/-- Applying `undo` with empty `past` is the identity. -/
theorem undo_of_past_nil (s : HistoryState) (h : s.past = []) : undo s = s := by
  rcases s with ⟨past, current, future⟩
  cases past with
  | nil => rfl
  | cons a l => simp at h

/-- Applying `redo` with empty `future` is the identity. -/
theorem redo_of_future_nil (s : HistoryState) (h : s.future = []) : redo s = s := by
  rcases s with ⟨past, current, future⟩
  cases future with
  | nil => rfl
  | cons a l => simp at h

/-- On a non-empty `past`, `undo` then `redo` restores the whole state. -/
theorem redo_undo_eq (s : HistoryState) (h : s.past ≠ []) : redo (undo s) = s := by
  rw [undo_eq_of_past_ne_nil s h, redo_eq_of_future_ne_nil _ (by simp)]
  have h2 := dropLast_append_getLastD s.past ([] : NoteSet) h
  simp only [List.headD_cons, List.tail_cons, h2]

/-- Quantization at strength 1 lands exactly on the grid target. -/
theorem quantizeValue_strength_one (value g : ℚ) :
    quantizeValue value g 1 = (jsRound (value / g) : ℚ) * g := by
  unfold quantizeValue
  ring

/-- Unfolding `processNote` with quantization enabled, written out. -/
theorem processNote_enabled (options : MidiOptions) (n : MidiNote)
    (hq : options.quantize.enabled = true) :
    processNote options n =
      { n with
          startTime := quantizeValue n.startTime (gridInSecondsOf options)
            options.quantize.strength
          duration := max 0.01
            (quantizeValue (n.startTime + n.duration) (gridInSecondsOf options)
                options.quantize.strength -
              quantizeValue n.startTime (gridInSecondsOf options)
                options.quantize.strength) } := by
  simp [processNote, hq]

/-- Step `processNoteRef` only ever extends the heap. -/
theorem processNoteRef_extends (options : MidiOptions) (s : Store) (r : ℕ) :
    ∃ u, (processNoteRef options s r).1 = s ++ u := by
  unfold processNoteRef
  by_cases he : !options.quantize.enabled
  · exact ⟨[], by simp [he]⟩
  · exact ⟨[processNote options (readRef s r)], by simp [he, allocNote]⟩

/-- Step `processNotesRef` only ever extends the heap. -/
theorem processNotesRef_extends (options : MidiOptions) (rs : List ℕ) :
    ∀ s : Store, ∃ t, (processNotesRef options s rs).1 = s ++ t := by
  induction rs with
  | nil => exact fun s => ⟨[], by simp [processNotesRef]⟩
  | cons r rs ih =>
    intro s
    obtain ⟨u, hu⟩ := processNoteRef_extends options s r
    obtain ⟨t, ht⟩ := ih (processNoteRef options s r).1
    refine ⟨u ++ t, ?_⟩
    show (processNotesRef options (processNoteRef options s r).1 rs).1 = s ++ (u ++ t)
    rw [ht, hu, List.append_assoc]

/-! ## Claims -/

/-- C1 (counterexample): the round trip fails as universally stated. In
the reachable state with empty `past` and future `[[noteC]]`, `undo` is a
no-op but `redo` still replaces `current`, so `undo();redo()` does not
return the pre-undo `current`. -/
theorem undo_redo_round_trip_cex :
    ¬ (redo (undo stateCex)).current = stateCex.current := by decide

/-- C1 (amended): whenever `past` is non-empty — or `future` is empty —
`undo()` then `redo()` restores the pre-undo `current`; `undo()` with
empty `past` leaves the whole state unchanged, and `redo()` with empty
`future` leaves the whole state unchanged. -/
theorem undo_redo_round_trip (s : HistoryState) :
    (s.past ≠ [] ∨ s.future = [] → (redo (undo s)).current = s.current) ∧
    (s.past = [] → undo s = s) ∧
    (s.future = [] → redo s = s) := by
  refine ⟨?_, undo_of_past_nil s, redo_of_future_nil s⟩
  rintro (h | h)
  · rw [redo_undo_eq s h]
  · by_cases hp : s.past = []
    · rw [undo_of_past_nil s hp, redo_of_future_nil s h]
    · rw [redo_undo_eq s hp]

/-- C1 (witness): the amended round trip at concrete states. -/
theorem undo_redo_round_trip_witness :
    (redo (undo stateW)).current = stateW.current ∧ redo stateW = stateW :=
  ⟨(undo_redo_round_trip stateW).1 (Or.inl (by decide)),
   (undo_redo_round_trip stateW).2.2 (by decide)⟩

/-- C2: `pushToHistory newNotes` appends the old `current` to `past`
(most recent last), clears `future` (even when non-empty), and sets
`current = newNotes`. -/
theorem pushToHistory_spec (s : HistoryState) (newNotes : NoteSet) :
    pushToHistory s newNotes =
      { past := s.past ++ [s.current], current := newNotes, future := [] } := rfl

/-- C4: quantization with strength 0 returns the value unchanged, for
every value and every (positive) grid size. -/
theorem quantizeValue_strength_zero (value g : ℚ) (_hg : 0 < g) :
    quantizeValue value g 0 = value := by
  simp [quantizeValue]

/-- C4 (witness): strength-0 identity at value 1.2 s, grid 0.25 s. -/
theorem quantizeValue_strength_zero_witness :
    (0 : ℚ) < 1/4 ∧ quantizeValue (6/5) (1/4) 0 = 6/5 :=
  ⟨by norm_num, quantizeValue_strength_zero (6/5) (1/4) (by norm_num)⟩

/-- C5: quantization at strength 1 is idempotent for every value and
every positive grid size. -/
theorem quantizeValue_idem_strength_one (value g : ℚ) (hg : 0 < g) :
    quantizeValue (quantizeValue value g 1) g 1 = quantizeValue value g 1 := by
  have hg' : g ≠ 0 := ne_of_gt hg
  rw [quantizeValue_strength_one value g, quantizeValue_strength_one,
    mul_div_cancel_right₀ _ hg', jsRound_intCast]

/-- C5 (witness): idempotence at value 1.2 s, grid 0.25 s. -/
theorem quantizeValue_idem_strength_one_witness :
    (0 : ℚ) < 1/4 ∧
    quantizeValue (quantizeValue (6/5) (1/4) 1) (1/4) 1 = quantizeValue (6/5) (1/4) 1 :=
  ⟨by norm_num, quantizeValue_idem_strength_one (6/5) (1/4) (by norm_num)⟩

/-- C7 (code evaluation): the keydown handler ignores the browser-form
Ctrl+Shift+Z event (`key = "Z"`, uppercase because Shift is held), since
it compares `e.key` against the lowercase `'z'` only; plain Ctrl+Z still
undoes and Ctrl+Y still redoes. The spec's `Ctrl/Cmd+Shift+Z → redo` is
therefore unreachable in a browser. -/
theorem handleKeyDown_ctrl_shift_z_ignored :
    handleKeyDown ctrlShiftZ = .noAction ∧
    handleKeyDown { ctrlKey := true, metaKey := false, shiftKey := false, key := "z" } =
      .undoAction ∧
    handleKeyDown { ctrlKey := true, metaKey := false, shiftKey := false, key := "y" } =
      .redoAction := by
  refine ⟨by decide, by decide, by decide⟩

/-- C9: on a non-empty `past`, `undo` leaves the full timeline
`past ++ [current] ++ future` unchanged; on a non-empty `future`, so
does `redo` — they only move the position of `current`. -/
theorem timeline_invariant (s : HistoryState) :
    (s.past ≠ [] → timeline (undo s) = timeline s) ∧
    (s.future ≠ [] → timeline (redo s) = timeline s) := by
  constructor
  · intro h
    rw [undo_eq_of_past_ne_nil s h]
    show s.past.dropLast ++ s.past.getLastD [] :: s.current :: s.future
      = s.past ++ s.current :: s.future
    rw [show s.past.dropLast ++ s.past.getLastD [] :: s.current :: s.future
        = (s.past.dropLast ++ [s.past.getLastD []]) ++ s.current :: s.future by simp,
      dropLast_append_getLastD _ _ h]
  · intro h
    rw [redo_eq_of_future_ne_nil s h]
    rcases s with ⟨past, current, future⟩
    cases future with
    | nil => simp at h
    | cons a l => simp [timeline]

/-- C9 (witness): timeline preservation at concrete states. -/
theorem timeline_invariant_witness :
    timeline (undo stateW) = timeline stateW ∧
    timeline (redo stateCex) = timeline stateCex :=
  ⟨(timeline_invariant stateW).1 (by decide),
   (timeline_invariant stateCex).2 (by decide)⟩

/-- C3: with quantization enabled, every processed note has its start
and end quantized independently, its new duration is
`max(0.01, quantizedEnd - quantizedStart)`, and hence every
post-quantization duration is at least 0.01 and strictly positive. -/
theorem processed_duration_positive (notes : List MidiNote) (options : MidiOptions)
    (hq : options.quantize.enabled = true) :
    ∀ m ∈ processedNotes notes options,
      (∃ n ∈ notes,
        m.startTime =
          quantizeValue n.startTime (gridInSecondsOf options) options.quantize.strength ∧
        m.duration = max 0.01
          (quantizeValue (n.startTime + n.duration) (gridInSecondsOf options)
              options.quantize.strength -
            quantizeValue n.startTime (gridInSecondsOf options)
              options.quantize.strength)) ∧
      0.01 ≤ m.duration ∧ 0 < m.duration := by
  intro m hm
  rw [processedNotes, List.mem_map] at hm
  obtain ⟨n, hn, rfl⟩ := hm
  rw [processNote_enabled options n hq]
  exact ⟨⟨n, hn, rfl, rfl⟩, le_max_left _ _, lt_of_lt_of_le (by norm_num) (le_max_left _ _)⟩

/-- C3 (witness): at 120 BPM, 1/8-grid full-strength quantization
(grid = 0.25 s), the note starting at 0.1 s with duration 0.02 s has
both endpoints snapped to 0, so the grid difference is 0 and the emitted
duration is floored to 0.01. -/
theorem processed_duration_positive_witness :
    optionsQ.quantize.enabled = true ∧
    ((∃ n ∈ [noteTiny],
        (processNote optionsQ noteTiny).startTime =
          quantizeValue n.startTime (gridInSecondsOf optionsQ) optionsQ.quantize.strength ∧
        (processNote optionsQ noteTiny).duration = max 0.01
          (quantizeValue (n.startTime + n.duration) (gridInSecondsOf optionsQ)
              optionsQ.quantize.strength -
            quantizeValue n.startTime (gridInSecondsOf optionsQ)
              optionsQ.quantize.strength)) ∧
      0.01 ≤ (processNote optionsQ noteTiny).duration ∧
      0 < (processNote optionsQ noteTiny).duration) :=
  ⟨rfl, processed_duration_positive [noteTiny] optionsQ rfl (processNote optionsQ noteTiny)
    (by simp [processedNotes])⟩

/-- With quantization disabled, processing is the identity on `note05`. -/
theorem processNote_note05 : processNote options120 note05 = note05 := rfl

/-- The encoder output on the concrete one-note input: a single track. -/
theorem generateMidiFile_note05 :
    generateMidiFile [note05] options120 = [trackFor options120 [note05] 1] := by
  simp [generateMidiFile, processedNotes, processNote, options120, note05, instrumentKeys,
    effInstrument, List.mergeSort_singleton]

/-- The single track on the concrete input holds one event. -/
theorem trackFor_note05_events :
    (trackFor options120 [note05] 1).events =
      [noteEventOf (ticksPerSecond options120.bpm) note05] := by
  simp [trackFor, List.mergeSort_singleton]

/-- C6: every event emitted by the encoder carries
`startTick = Math.round(startTime * ticksPerSecond)` and
`durationTicks = Math.round(duration * ticksPerSecond)` with
`ticksPerSecond = (bpm / 60) * 128`, for some processed note; and at
120 BPM (quantization off) the single note starting at 0.5 s is emitted
at start tick 128. -/
theorem tick_conversion (notes : List MidiNote) (options : MidiOptions) :
    (∀ t ∈ generateMidiFile notes options, ∀ ev ∈ t.events,
      ∃ n ∈ processedNotes notes options,
        ev.startTick = jsRound (n.startTime * (options.bpm / 60 * 128)) ∧
        ev.durationTicks = jsRound (n.duration * (options.bpm / 60 * 128))) ∧
    (generateMidiFile [note05] options120).map (fun t => t.events.map (fun ev => ev.startTick))
      = [[128]] := by
  constructor
  · intro t ht ev hev
    simp only [generateMidiFile, List.mem_map] at ht
    obtain ⟨inst, _hinst, rfl⟩ := ht
    simp only [trackFor, List.mem_map] at hev
    obtain ⟨n, hn, rfl⟩ := hev
    rw [List.mem_mergeSort] at hn
    exact ⟨n, List.mem_of_mem_filter hn, rfl, rfl⟩
  · rw [generateMidiFile_note05]
    simp only [List.map_cons, List.map_nil, trackFor_note05_events]
    norm_num [noteEventOf, jsRound, note05, options120, ticksPerSecond]

/-- C6 (witness): the per-event tick formula instantiated at the
concrete one-note input. -/
theorem tick_conversion_witness :
    ∃ n ∈ processedNotes [note05] options120,
      (noteEventOf (ticksPerSecond options120.bpm) note05).startTick =
        jsRound (n.startTime * (options120.bpm / 60 * 128)) ∧
      (noteEventOf (ticksPerSecond options120.bpm) note05).durationTicks =
        jsRound (n.duration * (options120.bpm / 60 * 128)) :=
  (tick_conversion [note05] options120).1
    (trackFor options120 [note05] 1)
    (by rw [generateMidiFile_note05]; exact List.mem_singleton_self _)
    (noteEventOf (ticksPerSecond options120.bpm) note05)
    (by rw [trackFor_note05_events]; exact List.mem_singleton_self _)

/-- C8: a click on an empty grid cell appends exactly one note: its
startTime is the snapped cursor time, its duration is one grid unit when
quantization is enabled and the 0.5 s fallback otherwise, its velocity
is 80, its instrument is the first existing note's (or 1 when none), the
new NoteSet is committed to history in the same action, and the new note
(last index) is selected; in particular a grid-click at cursor time
1.2 s with a 0.25 s grid yields startTime 1.25 and duration 0.25. -/
theorem grid_click_creates_note (bpm : ℚ) (q : PRQuantize) (pps nh : ℚ) (maxP : ℤ)
    (notes : NoteSet) (x y : ℚ) (s : HistoryState)
    (hbpm : 0 < bpm) (hgrid : 0 < q.grid)
    (hinst : ∀ n ∈ notes, 1 ≤ n.instrument) :
    (∃ newNote : MidiNote,
      (createAt (prGridInSeconds bpm q) pps nh maxP notes x y).notes = notes ++ [newNote] ∧
      newNote.startTime = snap (prGridInSeconds bpm q) (x / pps) ∧
      newNote.duration = (if q.enabled then prGridInSeconds bpm q else 0.5) ∧
      newNote.velocity = 80 ∧
      newNote.instrument = (match notes with | [] => 1 | n :: _ => n.instrument) ∧
      newNote.type = .melody ∧
      pushToHistory s (createAt (prGridInSeconds bpm q) pps nh maxP notes x y).notes =
        { past := s.past ++ [s.current]
          current := (createAt (prGridInSeconds bpm q) pps nh maxP notes x y).notes
          future := [] } ∧
      (createAt (prGridInSeconds bpm q) pps nh maxP notes x y).selected = (notes.length : ℤ)) ∧
    ((createAt (1/4) 100 12 108 [] 120 0).notes.map fun n => (n.startTime, n.duration))
      = [((5 : ℚ)/4, (1 : ℚ)/4)] := by
  constructor
  · refine ⟨_, rfl, rfl, ?_, rfl, ?_, rfl, rfl, ?_⟩
    · by_cases he : q.enabled
      · have hg : 0 < prGridInSeconds bpm q := by
          rw [prGridInSeconds, if_pos he]
          exact mul_pos (div_pos (by norm_num) hbpm) (div_pos (by norm_num) hgrid)
        rw [if_pos he, if_pos hg]
      · have hg : prGridInSeconds bpm q = 0 := by rw [prGridInSeconds, if_neg he]
        rw [if_neg he, hg]
        norm_num
    · cases notes with
      | nil => rfl
      | cons n l =>
        have h1 := hinst n (List.mem_cons_self n l)
        show (if n.instrument = 0 then 1 else n.instrument) = n.instrument
        rw [if_neg (by omega)]
    · simp [createAt]
  · norm_num [createAt, snap, jsRound]

/-- C8 (witness): the creation action at 120 BPM with a 1/8 grid
(0.25 s), cursor pixel 120 at 100 px/s (time 1.2 s), on an empty
NoteSet. -/
theorem grid_click_creates_note_witness :
    (0 : ℚ) < 120 ∧ (0 : ℚ) < 8 ∧
    ((∃ newNote : MidiNote,
      (createAt (prGridInSeconds 120 ⟨true, 8⟩) 100 12 108 [] 120 0).notes = [] ++ [newNote] ∧
      newNote.startTime = snap (prGridInSeconds 120 ⟨true, 8⟩) (120 / 100) ∧
      newNote.duration = prGridInSeconds 120 ⟨true, 8⟩ ∧
      newNote.velocity = 80 ∧
      newNote.instrument = 1 ∧
      newNote.type = .melody ∧
      pushToHistory ⟨[], [], []⟩
          (createAt (prGridInSeconds 120 ⟨true, 8⟩) 100 12 108 [] 120 0).notes =
        { past := [[]]
          current := (createAt (prGridInSeconds 120 ⟨true, 8⟩) 100 12 108 [] 120 0).notes
          future := [] } ∧
      (createAt (prGridInSeconds 120 ⟨true, 8⟩) 100 12 108 [] 120 0).selected = 0) ∧
    ((createAt (1/4) 100 12 108 [] 120 0).notes.map fun n => (n.startTime, n.duration))
      = [((5 : ℚ)/4, (1 : ℚ)/4)]) :=
  ⟨by norm_num, by norm_num,
    grid_click_creates_note 120 ⟨true, 8⟩ 100 12 108 [] 120 0 ⟨[], [], []⟩
      (by norm_num) (by norm_num) (by simp)⟩

/-- C10: the encoder is side-effect-free on its input. In the heap model
of `generateMidiFile`, the final heap is the initial heap plus freshly
allocated objects only: taking the original length returns the original
heap unchanged, so every note object the caller's array references (and
the array's length and order, which the embedding passes by value) is
exactly as before the call. -/
theorem generateMidiFileRef_preserves_input (options : MidiOptions) (s : Store)
    (noteRefs : List ℕ) :
    ((generateMidiFileRef options s noteRefs).1).take s.length = s := by
  obtain ⟨t, ht⟩ := processNotesRef_extends options noteRefs s
  show ((processNotesRef options s noteRefs).1).take s.length = s
  rw [ht, List.take_left]

end Audio2Midi
